import Mathlib

/-
  Verification development for a Quake-III-style BSP map loader and a
  state-stack dispatcher.

  Embedded sources:
    src/obj/bsp/map.rs    (Map::new, read_verts, read_faces, read_mesh_verts,
                           triangulate)
    src/state/director.rs (Director: push, pop, pull, swap, clear, update,
                           render, key_action, key_char, mouse_action,
                           mouse_moved)

  Modelling conventions: 32-bit floats are embedded as exact rationals; i32
  values as Int, with Rust division embedded as Int.tdiv (truncation toward
  zero); unsigned byte color channels as Nat (the guarded +100 / -100 in the
  source can never wrap a byte, so no modulus is needed); an assert! that
  aborts the load is embedded as an Except error, following the error
  taxonomy of the format (a non-positive record count and a bad magic tag
  are format errors). Logging is embedded as an explicit list of emitted
  diagnostic strings. File reads are embedded as total record streams
  indexed by record number; short reads are not modelled (no claim depends
  on them).
-/

/-- 3-component vector over exact rationals, standing for math::Vec3f. -/
structure Vec3f where
  x : ℚ
  y : ℚ
  z : ℚ
deriving DecidableEq, Repr

instance : Inhabited Vec3f := ⟨⟨0, 0, 0⟩⟩

/-- Componentwise subtraction, as used for the re-centering
`v.position - center` in read_verts. -/
instance : Sub Vec3f := ⟨fun a b => ⟨a.x - b.x, a.y - b.y, a.z - b.z⟩⟩

/-- Componentwise addition (used only to state bound symmetry). -/
instance : Add Vec3f := ⟨fun a b => ⟨a.x + b.x, a.y + b.y, a.z + b.z⟩⟩

/-- The zero vector, standing for math::Vec3f::zero(). -/
def Vec3f.zero : Vec3f := ⟨0, 0, 0⟩

/-- 4-component vector of unsigned color bytes, standing for the RGBA
color of a vertex record. Each channel is a byte value in 0..255. -/
structure Vec4u8 where
  x : Nat
  y : Nat
  z : Nat
  w : Nat
deriving DecidableEq, Repr

instance : Inhabited Vec4u8 := ⟨⟨0, 0, 0, 0⟩⟩

/-- Modelled from the spec: the vertex record of the vertex lump (lump.rs
is not under src/). Fields: 3D position (float triplet), two pairs of 2D
texture coordinates, a 3D normal, and an RGBA color of 4 unsigned bytes.
Only position and color are transformed by the loader; the rest is
carried verbatim. -/
structure Vertex where
  position : Vec3f
  tex_coord : ℚ × ℚ
  lm_coord : ℚ × ℚ
  normal : Vec3f
  color : Vec4u8
deriving DecidableEq, Repr

instance : Inhabited Vertex := ⟨⟨default, (0, 0), (0, 0), default, default⟩⟩

/-- Modelled from the spec: the face record of the face lump (lump.rs is
not under src/). Only the face-kind discriminant, the starting index into
the vertex array and the vertex count are consumed by triangulation. -/
structure Face where
  kind : Int
  start_vertex : Int
  num_vertices : Int
deriving DecidableEq, Repr

instance : Inhabited Face := ⟨⟨0, 0, 0⟩⟩

/-- Modelled from the spec: a mesh-vertex record is a single signed index
offset, read but not consumed by triangulation. -/
structure Mesh_Vert where
  offset : Int
deriving DecidableEq, Repr

instance : Inhabited Mesh_Vert := ⟨⟨0⟩⟩

/-- Axis-aligned bounding box, standing for math::BB3, with the two
corner fields named as in the source. -/
structure BB3 where
  top_left : Vec3f
  bottom_right : Vec3f
deriving DecidableEq, Repr

/-- The zero box, standing for math::BB3::zero(). -/
def BB3.zero : BB3 := ⟨Vec3f.zero, Vec3f.zero⟩

instance : Inhabited BB3 := ⟨BB3.zero⟩

/- ===== Per-vertex transform of read_verts (map.rs lines 83-101) ===== -/

/-- Axis convention fix, mirroring map.rs lines 83-86:
`let temp = vert.position.y; vert.position.y = vert.position.z;
vert.position.z = -temp;`. -/
def axisFixStep (v : Vertex) : Vertex :=
  let temp := v.position.y
  let v1 := { v with position := { v.position with y := v.position.z } }
  { v1 with position := { v1.position with z := -temp } }

/-- Color hack, mirroring map.rs lines 88-96: six sequential ifs adding
100 to a zero channel and subtracting 100 from a 255 channel, then
forcing alpha to 1. -/
def colorFixStep (v : Vertex) : Vertex :=
  let v1 := if v.color.x = 0 then { v with color := { v.color with x := v.color.x + 100 } } else v
  let v2 := if v1.color.y = 0 then { v1 with color := { v1.color with y := v1.color.y + 100 } } else v1
  let v3 := if v2.color.z = 0 then { v2 with color := { v2.color with z := v2.color.z + 100 } } else v2
  let v4 := if v3.color.x = 255 then { v3 with color := { v3.color with x := v3.color.x - 100 } } else v3
  let v5 := if v4.color.y = 255 then { v4 with color := { v4.color with y := v4.color.y - 100 } } else v4
  let v6 := if v5.color.z = 255 then { v5 with color := { v5.color with z := v5.color.z - 100 } } else v5
  { v6 with color := { v6.color with w := 1 } }

/-- Global size scale, mirroring map.rs lines 98-101: divide every
position component by 32.0. -/
def scaleStep (v : Vertex) : Vertex :=
  { v with position := ⟨v.position.x / 32, v.position.y / 32, v.position.z / 32⟩ }

/-- The whole loop-body transform of read_verts applied to one raw
vertex record, in source order: axis fix, then color fix, then scale. -/
def processVertex (v : Vertex) : Vertex :=
  scaleStep (colorFixStep (axisFixStep v))

/- ===== Characterization lemmas on literal records ===== -/

theorem axisFixStep_mk (x y z : ℚ) (tc lc : ℚ × ℚ) (nm : Vec3f) (c : Vec4u8) :
    axisFixStep ⟨⟨x, y, z⟩, tc, lc, nm, c⟩ = ⟨⟨x, z, -y⟩, tc, lc, nm, c⟩ := rfl

theorem scaleStep_mk (x y z : ℚ) (tc lc : ℚ × ℚ) (nm : Vec3f) (c : Vec4u8) :
    scaleStep ⟨⟨x, y, z⟩, tc, lc, nm, c⟩ = ⟨⟨x / 32, y / 32, z / 32⟩, tc, lc, nm, c⟩ := rfl

theorem colorFixStep_mk (p : Vec3f) (tc lc : ℚ × ℚ) (nm : Vec3f) (cx cy cz cw : Nat) :
    colorFixStep ⟨p, tc, lc, nm, ⟨cx, cy, cz, cw⟩⟩ =
      ⟨p, tc, lc, nm,
        ⟨if cx = 0 then cx + 100 else if cx = 255 then cx - 100 else cx,
         if cy = 0 then cy + 100 else if cy = 255 then cy - 100 else cy,
         if cz = 0 then cz + 100 else if cz = 255 then cz - 100 else cz, 1⟩⟩ := by
  unfold colorFixStep
  by_cases hx : cx = 0 <;> by_cases hy : cy = 0 <;> by_cases hz : cz = 0 <;>
    by_cases hx2 : cx = 255 <;> by_cases hy2 : cy = 255 <;> by_cases hz2 : cz = 255 <;>
    simp_all

/- ===== Theorems for claims C4 and C5 ===== -/

/-- C4: for every loaded vertex, a single application of the
axis-convention fix maps raw position (x, y, z) to (x, z, -y), it
leaves the color untouched, and it is applied before the color
de-extremization and before the uniform scale, so the final position is
the axis-fixed position divided by 32 componentwise. -/
theorem c4_axis_convention_fix (v : Vertex) (x y z : ℚ)
    (h : v.position = ⟨x, y, z⟩) :
    (axisFixStep v).position = ⟨x, z, -y⟩ ∧
    (axisFixStep v).color = v.color ∧
    processVertex v = scaleStep (colorFixStep (axisFixStep v)) ∧
    (processVertex v).position = ⟨x / 32, z / 32, (-y) / 32⟩ := by
  rcases v with ⟨⟨px, py, pz⟩, tc, lc, nm, ⟨cx, cy, cz, cw⟩⟩
  obtain ⟨hx, hy, hz⟩ : px = x ∧ py = y ∧ pz = z :=
    ⟨congrArg Vec3f.x h, congrArg Vec3f.y h, congrArg Vec3f.z h⟩
  subst hx; subst hy; subst hz
  refine ⟨by rw [axisFixStep_mk], by rw [axisFixStep_mk], rfl, ?_⟩
  unfold processVertex
  rw [axisFixStep_mk, colorFixStep_mk, scaleStep_mk]

/-- Demonstration vertex used by concrete witnesses. -/
def vdemo : Vertex :=
  { position := ⟨5, 6, 7⟩, tex_coord := (0, 0), lm_coord := (0, 0),
    normal := ⟨0, 0, 0⟩, color := ⟨1, 2, 3, 4⟩ }

/-- C4 witness at a concrete vertex. -/
theorem c4_axis_convention_fix_witness :
    vdemo.position = ⟨5, 6, 7⟩ ∧
    ((axisFixStep vdemo).position = ⟨5, 7, -6⟩ ∧
     (axisFixStep vdemo).color = vdemo.color ∧
     processVertex vdemo = scaleStep (colorFixStep (axisFixStep vdemo)) ∧
     (processVertex vdemo).position = ⟨5 / 32, 7 / 32, (-6) / 32⟩) :=
  ⟨rfl, c4_axis_convention_fix vdemo 5 6 7 rfl⟩

/-- C5: for every loaded vertex, each stored R/G/B channel equals
v + 100 when the input channel is 0, v - 100 when it is 255, and v
otherwise; alpha is forced to exactly 1; and the stored color is a
function of the raw color alone (the axis fix and the position scale do
not affect it). -/
theorem c5_color_deextremization (v : Vertex) :
    (processVertex v).color =
      ⟨if v.color.x = 0 then v.color.x + 100 else
         if v.color.x = 255 then v.color.x - 100 else v.color.x,
       if v.color.y = 0 then v.color.y + 100 else
         if v.color.y = 255 then v.color.y - 100 else v.color.y,
       if v.color.z = 0 then v.color.z + 100 else
         if v.color.z = 255 then v.color.z - 100 else v.color.z, 1⟩ := by
  rcases v with ⟨⟨px, py, pz⟩, tc, lc, nm, ⟨cx, cy, cz, cw⟩⟩
  unfold processVertex
  rw [axisFixStep_mk, colorFixStep_mk, scaleStep_mk]

/- ===== Running bounding box of read_verts (map.rs lines 103-126) ===== -/

/-- One per-vertex update of the running bounding box, mirroring the
axis-by-axis if/else-if chains of map.rs lines 108-125: on X the
top_left corner tracks the minimum and bottom_right the maximum; on Y
and Z the top_left corner tracks the maximum and bottom_right the
minimum. -/
def bbUpdate (bb : BB3) (p : Vec3f) : BB3 :=
  let bb1 :=
    if p.x < bb.top_left.x then
      { bb with top_left := { bb.top_left with x := p.x } }
    else if p.x > bb.bottom_right.x then
      { bb with bottom_right := { bb.bottom_right with x := p.x } }
    else bb
  let bb2 :=
    if p.y > bb1.top_left.y then
      { bb1 with top_left := { bb1.top_left with y := p.y } }
    else if p.y < bb1.bottom_right.y then
      { bb1 with bottom_right := { bb1.bottom_right with y := p.y } }
    else bb1
  if p.z > bb2.top_left.z then
    { bb2 with top_left := { bb2.top_left with z := p.z } }
  else if p.z < bb2.bottom_right.z then
    { bb2 with bottom_right := { bb2.bottom_right with z := p.z } }
  else bb2

/-- The running bounding box over the processed vertex positions,
mirroring the `match i` of map.rs lines 104-126: the first vertex
initializes both corners to its position, every later vertex relaxes
the box through bbUpdate. An empty list leaves the box at
BB3.zero, the value set by Map::new. -/
def bbRun (ps : List Vec3f) : BB3 :=
  match ps with
  | [] => BB3.zero
  | p :: rest => rest.foldl bbUpdate ⟨p, p⟩

/- ===== Mesh bounds and re-centering (map.rs lines 131-155) ===== -/

/-- Componentwise minimum, mirroring the cmp::min fold of lines 140-142. -/
def vmin (a b : Vec3f) : Vec3f := ⟨min a.x b.x, min a.y b.y, min a.z b.z⟩

/-- Componentwise maximum, mirroring the cmp::max fold of lines 144-146. -/
def vmax (a b : Vec3f) : Vec3f := ⟨max a.x b.x, max a.y b.y, max a.z b.z⟩

/-- True componentwise minimum over all vertex positions, seeded from
vertex 0 as in map.rs lines 132-142. -/
def meshMin (vs : List Vertex) : Vec3f :=
  vs.foldl (fun m v => vmin m v.position) vs.headI.position

/-- True componentwise maximum over all vertex positions, seeded from
vertex 0 as in map.rs lines 135-146. -/
def meshMax (vs : List Vertex) : Vec3f :=
  vs.foldl (fun m v => vmax m v.position) vs.headI.position

/-- The center subtracted during re-centering, mirroring map.rs lines
148-150: per axis, max - ((max - min) / 2). -/
def meshCenter (vs : List Vertex) : Vec3f :=
  let mn := meshMin vs
  let mx := meshMax vs
  ⟨mx.x - ((mx.x - mn.x) / 2), mx.y - ((mx.y - mn.y) / 2), mx.z - ((mx.z - mn.z) / 2)⟩

/-- Re-centering pass, mirroring map.rs lines 153-154: every vertex
position has the center subtracted. -/
def recenter (vs : List Vertex) : List Vertex :=
  vs.map (fun v => { v with position := v.position - meshCenter vs })

/- ===== Triangulator (map.rs lines 189-231) ===== -/

/-- A position-plus-color vertex, standing for primitive::Vertex_PC.
The color bytes are widened to floats as in map.rs lines 209-211. -/
structure Vertex_PC where
  position : Vec3f
  color : Vec3f
deriving DecidableEq, Repr

/-- A triangle of three Vertex_PC values, standing for
primitive::Triangle. -/
structure Triangle where
  a : Vertex_PC
  b : Vertex_PC
  c : Vertex_PC
deriving DecidableEq, Repr

/-- Conversion of a loaded vertex into the renderer vertex used by
Triangle::new in map.rs lines 207-221: position kept, the three color
bytes widened to a float triplet, normal and UV dropped. -/
def vertexPC (v : Vertex) : Vertex_PC :=
  ⟨v.position, ⟨(v.color.x : ℚ), (v.color.y : ℚ), (v.color.z : ℚ)⟩⟩

/-- The iteration space of `for i32::range(0, n)`: the integers
0, 1, ..., n - 1 (empty when n is not positive). -/
def i32range (n : Int) : List Int :=
  (List.range n.toNat).map Int.ofNat

/-- Indexing `self.verts[idx]` with an i32 index; out-of-range access is
total here (default record) since no claim exercises it. -/
def getVert (vs : List Vertex) (idx : Int) : Vertex :=
  vs.getD idx.toNat default

/-- Vertices pushed into the replacement vertex buffer for one face,
mirroring map.rs lines 194-204: a face whose kind is not 1 is skipped
(`loop;`), a polygon face with at least 3 vertices emits, for each i in
0 .. n - 2, the three vertices at indices start, start + i + 2,
start + i + 1, and a degenerate polygon emits nothing. -/
def faceVerts (vs : List Vertex) (f : Face) : List Vertex :=
  if f.kind ≠ 1 then []
  else if 3 ≤ f.num_vertices then
    (i32range (f.num_vertices - 2)).flatMap (fun i =>
      [getVert vs f.start_vertex,
       getVert vs (f.start_vertex + i + 2),
       getVert vs (f.start_vertex + i + 1)])
  else []

/-- Triangles pushed into the triangle buffer for one face, mirroring
map.rs lines 206-221: one Triangle per fan index, built from the same
three vertices as faceVerts in the same order. -/
def faceTris (vs : List Vertex) (f : Face) : List Triangle :=
  if f.kind ≠ 1 then []
  else if 3 ≤ f.num_vertices then
    (i32range (f.num_vertices - 2)).map (fun i =>
      ⟨vertexPC (getVert vs f.start_vertex),
       vertexPC (getVert vs (f.start_vertex + i + 2)),
       vertexPC (getVert vs (f.start_vertex + i + 1))⟩)
  else []

/-- Diagnostics logged for one face, mirroring map.rs line 225: only a
polygon face with fewer than 3 vertices logs, a face of any other kind
is skipped silently by the `loop;` on line 194. -/
def faceLog (f : Face) : List String :=
  if f.kind ≠ 1 then []
  else if 3 ≤ f.num_vertices then []
  else ["Invalid face"]

/-- The whole triangulation pass of map.rs lines 189-231 over the loaded
vertex and face buffers: the replacement vertex buffer, the triangle
buffer and the emitted diagnostics, each accumulated over the faces in
order. -/
def triangulate (vs : List Vertex) (faces : List Face) :
    List Vertex × List Triangle × List String :=
  (faces.flatMap (faceVerts vs), faces.flatMap (faceTris vs), faces.flatMap faceLog)

/-- Triangles contributed by an accepted face, and zero for a skipped
one: (num_vertices - 2) for a polygon face with at least 3 vertices. -/
def acceptedTriangles (f : Face) : Nat :=
  if f.kind = 1 ∧ 3 ≤ f.num_vertices then (f.num_vertices - 2).toNat else 0

/-- Total triangle count over a face list. -/
def triangleCount (faces : List Face) : Nat :=
  (faces.map acceptedTriangles).sum

/- ===== Header, directory and file model (Map::new, read_* lumps) ===== -/

/-- Modelled from the spec: the lump-kind enumeration of the directory
(lump.rs is not under src/); only Vertices, Faces and MeshVerts are
consumed by this loader. -/
inductive LumpKind
  | Entities | Textures | Planes | Nodes | Leaves | LeafFaces | LeafBrushes
  | Models | Brushes | BrushSides | Vertices | MeshVerts | Effects | Faces
  | Lightmaps | LightVolumes | Visibility
deriving DecidableEq, Repr

/-- Modelled from the spec: a directory entry, a byte offset and a byte
length (each an i32). -/
structure LumpEntry where
  offset : Int
  length : Int
deriving DecidableEq, Repr

/-- Modelled from the spec: the fixed-layout header, a 4-byte magic tag
(stored as byte values), a format version and the lump directory. -/
structure Header where
  magic : Int × Int × Int × Int
  version : Int
  lumps : LumpKind → LumpEntry

/-- The magic check of Map::new (map.rs lines 56-59): the four magic
bytes must read IBSP. -/
def magicOk (h : Header) : Prop :=
  h.magic = (73, 66, 83, 80)

instance (h : Header) : Decidable (magicOk h) := by
  unfold magicOk; infer_instance

/-- Modelled from the spec: the byte size of a vertex record, 3 position
floats + 2 pairs of texture-coordinate floats + 3 normal floats + 4
color bytes = 44 bytes with 4-byte floats. -/
def vertexRecordSize : Int := 44

/-- Modelled from the spec: the byte size of a face record in the
Quake-III-style format (26 i32-sized fields), 104 bytes. Only its
positivity matters to the record-count check. -/
def faceRecordSize : Int := 104

/-- Modelled from the spec: the byte size of a mesh-vertex record, one
i32 offset, 4 bytes. -/
def meshVertRecordSize : Int := 4

/-- The error taxonomy of the load pipeline. IOError stands for file
open/seek/read failures (not modelled further); FormatError stands for
a bad magic tag or a non-positive lump record count (the assert! sites
of the source, per the error-handling design). -/
inductive LoadError
  | IOError
  | FormatError
deriving DecidableEq, Repr

/-- The file as seen through seek-and-read: the header, plus a total
record stream per consumed lump, indexed by record number. -/
structure FileModel where
  header : Header
  vertexAt : Nat → Vertex
  faceAt : Nat → Face
  meshVertAt : Nat → Mesh_Vert

/-- read_verts (map.rs lines 70-155): derive the record count from the
directory with truncating i32 division, fail on a non-positive count
(the assert! on line 75, embedded as FormatError), then transform each
record, fold the running bounding box over the transformed positions,
and re-center the vertex list. Returns the re-centered vertex buffer
and the running bounding box. -/
def read_verts (f : FileModel) : Except LoadError (List Vertex × BB3) :=
  let num_verts : Int :=
    Int.tdiv (f.header.lumps LumpKind.Vertices).length vertexRecordSize
  if 0 < num_verts then
    let processed := (List.range num_verts.toNat).map (fun i => processVertex (f.vertexAt i))
    Except.ok (recenter processed, bbRun (processed.map Vertex.position))
  else Except.error LoadError.FormatError

/-- read_faces (map.rs lines 157-171): bulk read of the face lump after
the positivity check of the record count (the assert! on line 162). -/
def read_faces (f : FileModel) : Except LoadError (List Face) :=
  let num_faces : Int :=
    Int.tdiv (f.header.lumps LumpKind.Faces).length faceRecordSize
  if 0 < num_faces then
    Except.ok ((List.range num_faces.toNat).map f.faceAt)
  else Except.error LoadError.FormatError

/-- read_mesh_verts (map.rs lines 173-187): bulk read of the mesh-vertex
lump after the positivity check of the record count (the assert! on
line 178). -/
def read_mesh_verts (f : FileModel) : Except LoadError (List Mesh_Vert) :=
  let num_obj : Int :=
    Int.tdiv (f.header.lumps LumpKind.MeshVerts).length meshVertRecordSize
  if 0 < num_obj then
    Except.ok ((List.range num_obj.toNat).map f.meshVertAt)
  else Except.error LoadError.FormatError

/-- The map object, mirroring the Map struct of map.rs lines 24-34 (the
entity lump is not consumed by any claim and is left out). -/
structure Map where
  header : Header
  tris : List Triangle
  verts : List Vertex
  faces : List Face
  mesh_verts : List Mesh_Vert
  position : Vec3f
  bb : BB3

/-- The triangulation step of Map::new applied to a built map: the
vertex buffer is replaced by the output of triangulate and the emitted
triangles are pushed onto the triangle buffer (map.rs lines 206 and
229); the diagnostics go to the log. -/
def mapTriangulate (m : Map) : Map :=
  { m with
    verts := (triangulate m.verts m.faces).1,
    tris := m.tris ++ (triangulate m.verts m.faces).2.1 }

/-- Map::new (map.rs lines 38-68): check the magic tag, run the three
lump readers in order, then triangulate. A stage failure aborts the
whole load with its error and no map value is produced. -/
def MapNew (f : FileModel) : Except LoadError Map :=
  if magicOk f.header then
    match read_verts f with
    | Except.error e => Except.error e
    | Except.ok (vs, bb) =>
      match read_faces f with
      | Except.error e => Except.error e
      | Except.ok fs =>
        match read_mesh_verts f with
        | Except.error e => Except.error e
        | Except.ok ms =>
          Except.ok (mapTriangulate
            { header := f.header, tris := [], verts := vs, faces := fs,
              mesh_verts := ms, position := Vec3f.zero, bb := bb })
  else Except.error LoadError.FormatError

/- ===== Triangulation lemmas ===== -/

theorem length_i32range (n : Int) : (i32range n).length = n.toNat := by
  simp [i32range]

theorem length_flatMap_three {α β : Type} (l : List α) (g1 g2 g3 : α → β) :
    (l.flatMap (fun i => [g1 i, g2 i, g3 i])).length = 3 * l.length := by
  induction l with
  | nil => rfl
  | cons a t ih =>
    simp only [List.flatMap_cons, List.length_append, List.length_cons,
      List.length_nil, ih, List.length_cons]
    omega

theorem faceVerts_length (vs : List Vertex) (f : Face) :
    (faceVerts vs f).length = 3 * acceptedTriangles f := by
  unfold faceVerts acceptedTriangles
  by_cases hk : f.kind = 1
  · by_cases hn : 3 ≤ f.num_vertices
    · simp only [hk, hn, and_self, if_true, ne_eq, not_true_eq_false, if_false]
      rw [length_flatMap_three]
      rw [length_i32range]
    · simp [hk, hn]
  · simp [hk]

theorem faceTris_length (vs : List Vertex) (f : Face) :
    (faceTris vs f).length = acceptedTriangles f := by
  unfold faceTris acceptedTriangles
  by_cases hk : f.kind = 1
  · by_cases hn : 3 ≤ f.num_vertices
    · simp [hk, hn, length_i32range]
    · simp [hk, hn]
  · simp [hk]

theorem triangulate_verts_length (vs : List Vertex) (faces : List Face) :
    (triangulate vs faces).1.length = 3 * triangleCount faces := by
  unfold triangulate triangleCount
  induction faces with
  | nil => rfl
  | cons a t ih =>
    simp only [List.flatMap_cons, List.map_cons, List.sum_cons, List.length_append,
      faceVerts_length, ih]
    ring

theorem triangulate_tris_length (vs : List Vertex) (faces : List Face) :
    (triangulate vs faces).2.1.length = triangleCount faces := by
  unfold triangulate triangleCount
  induction faces with
  | nil => rfl
  | cons a t ih =>
    simp only [List.flatMap_cons, List.map_cons, List.sum_cons, List.length_append,
      faceTris_length, ih]

theorem faceVerts_map_pc (vs : List Vertex) (f : Face) :
    (faceVerts vs f).map vertexPC = (faceTris vs f).flatMap (fun t => [t.a, t.b, t.c]) := by
  unfold faceVerts faceTris
  by_cases hk : f.kind = 1
  · by_cases hn : 3 ≤ f.num_vertices
    · simp only [hk, hn, ne_eq, not_true_eq_false, if_false, if_true]
      induction i32range (f.num_vertices - 2) with
      | nil => rfl
      | cons a t ih =>
        simp only [List.flatMap_cons, List.map_cons, List.map_append, ih]
        rfl
    · simp [hk, hn]
  · simp [hk]

theorem triangulate_map_pc (vs : List Vertex) (faces : List Face) :
    (triangulate vs faces).1.map vertexPC =
      (triangulate vs faces).2.1.flatMap (fun t => [t.a, t.b, t.c]) := by
  unfold triangulate
  induction faces with
  | nil => rfl
  | cons a t ih =>
    simp only [List.flatMap_cons, List.map_append, List.flatMap_append,
      faceVerts_map_pc, ih]

theorem mapTriangulate_spec (m0 : Map) (h0 : m0.tris = []) :
    (mapTriangulate m0).verts.length = 3 * triangleCount (mapTriangulate m0).faces ∧
    (mapTriangulate m0).tris.length = triangleCount (mapTriangulate m0).faces ∧
    (mapTriangulate m0).verts.map vertexPC =
      (mapTriangulate m0).tris.flatMap (fun t => [t.a, t.b, t.c]) := by
  unfold mapTriangulate
  refine ⟨?_, ?_, ?_⟩
  · simp [triangulate_verts_length]
  · simp [h0, triangulate_tris_length]
  · simp [h0, triangulate_map_pc]

theorem read_verts_error (f : FileModel) (e : LoadError)
    (h : read_verts f = Except.error e) : e = LoadError.FormatError := by
  unfold read_verts at h
  dsimp only at h
  split at h
  · exact absurd h (by simp)
  · exact (Except.error.inj h).symm

theorem read_faces_error (f : FileModel) (e : LoadError)
    (h : read_faces f = Except.error e) : e = LoadError.FormatError := by
  unfold read_faces at h
  dsimp only at h
  split at h
  · exact absurd h (by simp)
  · exact (Except.error.inj h).symm

/- ===== Claim C1 ===== -/

/-- C1: for any valid file, the final vertex buffer holds
triangleCount * 3 entries and the triangle buffer triangleCount
entries, where triangleCount sums (vertexCount - 2) over accepted
polygon faces; and the vertex buffer is exactly the flattened
triangulated list, three entries per emitted triangle in emission
order, replacing the per-lump vertex array. -/
theorem c1_triangulation_buffer_lengths (f : FileModel) (m : Map)
    (h : MapNew f = Except.ok m) :
    m.verts.length = 3 * triangleCount m.faces ∧
    m.tris.length = triangleCount m.faces ∧
    m.verts.map vertexPC = m.tris.flatMap (fun t => [t.a, t.b, t.c]) := by
  unfold MapNew at h
  split at h
  · split at h
    · injection h
    · split at h
      · injection h
      · split at h
        · injection h
        · have hmeq := (Except.ok.inj h).symm
          subst hmeq
          exact mapTriangulate_spec _ rfl
  · injection h

/-- Demonstration file: magic IBSP, a vertex lump of 4 records, a face
lump of one polygon face with 4 vertices starting at 0, and a
mesh-vertex lump of one record. -/
def demoFile : FileModel :=
  { header :=
      { magic := (73, 66, 83, 80), version := 46,
        lumps := fun k =>
          match k with
          | LumpKind.Vertices => ⟨0, 176⟩
          | LumpKind.Faces => ⟨176, 104⟩
          | LumpKind.MeshVerts => ⟨280, 4⟩
          | _ => ⟨0, 0⟩ },
    vertexAt := fun _ => default,
    faceAt := fun _ => ⟨1, 0, 4⟩,
    meshVertAt := fun _ => default }

/-- Fallback map value (never reached by the demonstration file). -/
def demoMapFallback : Map :=
  { header := demoFile.header, tris := [], verts := [], faces := [],
    mesh_verts := [], position := Vec3f.zero, bb := BB3.zero }

/-- The map value loaded from the demonstration file. -/
def demoMap : Map :=
  match MapNew demoFile with
  | Except.ok m => m
  | Except.error _ => demoMapFallback

/-- C1 witness: the demonstration file loads and its buffers have the
claimed lengths (2 triangles, 6 vertex entries). -/
theorem c1_triangulation_buffer_lengths_witness :
    MapNew demoFile = Except.ok demoMap ∧
    (demoMap.verts.length = 3 * triangleCount demoMap.faces ∧
     demoMap.tris.length = triangleCount demoMap.faces ∧
     demoMap.verts.map vertexPC = demoMap.tris.flatMap (fun t => [t.a, t.b, t.c])) :=
  ⟨rfl, c1_triangulation_buffer_lengths demoFile demoMap rfl⟩

/- ===== Claim C2 ===== -/

/-- C2: every accepted polygon face is fan-triangulated around vertex 0
of its run: for each i in 0 .. n - 2 one triangle is emitted with
vertices at local indices (0, i + 2, i + 1); in particular a quad face
over local vertices [A, B, C, D] emits exactly the triangles (A, C, B)
and (A, D, C), in that order. -/
theorem c2_fan_triangulation_winding :
    (∀ (vs : List Vertex) (f : Face), f.kind = 1 → 3 ≤ f.num_vertices →
      faceTris vs f = (List.range (f.num_vertices - 2).toNat).map (fun i =>
        ⟨vertexPC (getVert vs f.start_vertex),
         vertexPC (getVert vs (f.start_vertex + (i : Int) + 2)),
         vertexPC (getVert vs (f.start_vertex + (i : Int) + 1))⟩)) ∧
    (∀ A B C D : Vertex,
      triangulate [A, B, C, D] [⟨1, 0, 4⟩] =
        ([A, C, B, A, D, C],
         [⟨vertexPC A, vertexPC C, vertexPC B⟩, ⟨vertexPC A, vertexPC D, vertexPC C⟩],
         [])) := by
  constructor
  · intro vs f hk hn
    unfold faceTris
    simp only [hk, hn, ne_eq, not_true_eq_false, if_false, if_true, i32range,
      List.map_map]
    rfl
  · intro A B C D
    rfl

/-- Demonstration quad vertices for concrete witnesses, differing in
position so that the winding is visible. -/
def vdemoA : Vertex := { vdemo with position := ⟨0, 0, 0⟩ }

def vdemoB : Vertex := { vdemo with position := ⟨1, 0, 0⟩ }

def vdemoC : Vertex := { vdemo with position := ⟨1, 1, 0⟩ }

def vdemoD : Vertex := { vdemo with position := ⟨0, 1, 0⟩ }

/-- C2 witness: both parts applied at the concrete quad. -/
theorem c2_fan_triangulation_winding_witness :
    ((⟨1, 0, 4⟩ : Face).kind = 1 ∧ 3 ≤ (⟨1, 0, 4⟩ : Face).num_vertices ∧
     faceTris [vdemoA, vdemoB, vdemoC, vdemoD] ⟨1, 0, 4⟩ =
       (List.range (((⟨1, 0, 4⟩ : Face).num_vertices - 2).toNat)).map (fun i =>
         ⟨vertexPC (getVert [vdemoA, vdemoB, vdemoC, vdemoD] (⟨1, 0, 4⟩ : Face).start_vertex),
          vertexPC (getVert [vdemoA, vdemoB, vdemoC, vdemoD]
            ((⟨1, 0, 4⟩ : Face).start_vertex + (i : Int) + 2)),
          vertexPC (getVert [vdemoA, vdemoB, vdemoC, vdemoD]
            ((⟨1, 0, 4⟩ : Face).start_vertex + (i : Int) + 1))⟩)) ∧
    triangulate [vdemoA, vdemoB, vdemoC, vdemoD] [⟨1, 0, 4⟩] =
      ([vdemoA, vdemoC, vdemoB, vdemoA, vdemoD, vdemoC],
       [⟨vertexPC vdemoA, vertexPC vdemoC, vertexPC vdemoB⟩,
        ⟨vertexPC vdemoA, vertexPC vdemoD, vertexPC vdemoC⟩],
       []) :=
  ⟨⟨rfl, by decide,
    c2_fan_triangulation_winding.1 [vdemoA, vdemoB, vdemoC, vdemoD] ⟨1, 0, 4⟩ rfl (by decide)⟩,
   c2_fan_triangulation_winding.2 vdemoA vdemoB vdemoC vdemoD⟩

/- ===== Claim C8 (corrected) ===== -/

/-- C8 counterexample: a face of kind 0 (not the polygon kind) emits no
triangle but also emits NO diagnostic, contradicting the claim that a
face with an unsupported kind is logged; the skip on map.rs line 194 is
silent. -/
theorem c8_counterexample_silent_skip :
    triangulate [] [⟨0, 0, 4⟩] = ([], [], []) := rfl

/-- C8 amended: a face whose kind is not 1 emits zero triangles and is
skipped silently (no diagnostic); a polygon face (kind 1) with fewer
than 3 vertices emits zero triangles and logs the invalid-face
diagnostic; in both cases the triangulator continues with the remaining
faces and no error is raised. -/
theorem c8_skippable_faces (vs : List Vertex) (f : Face) (rest : List Face) :
    (f.kind ≠ 1 →
      faceVerts vs f = [] ∧ faceTris vs f = [] ∧ faceLog f = []) ∧
    (f.kind = 1 → f.num_vertices < 3 →
      faceVerts vs f = [] ∧ faceTris vs f = [] ∧ faceLog f = ["Invalid face"]) ∧
    triangulate vs (f :: rest) =
      (faceVerts vs f ++ (triangulate vs rest).1,
       faceTris vs f ++ (triangulate vs rest).2.1,
       faceLog f ++ (triangulate vs rest).2.2) := by
  refine ⟨?_, ?_, ?_⟩
  · intro hk
    exact ⟨by simp [faceVerts, hk], by simp [faceTris, hk], by simp [faceLog, hk]⟩
  · intro hk hn
    have hn2 : ¬ 3 ≤ f.num_vertices := by omega
    exact ⟨by simp [faceVerts, hk, hn2], by simp [faceTris, hk, hn2],
           by simp [faceLog, hk, hn2]⟩
  · rfl

/-- C8 witness: the amended statement applied at a kind-0 face and at a
degenerate polygon face in front of a polygon quad. -/
theorem c8_skippable_faces_witness :
    ((⟨0, 0, 4⟩ : Face).kind ≠ 1 ∧
      faceVerts [vdemoA] ⟨0, 0, 4⟩ = [] ∧ faceTris [vdemoA] ⟨0, 0, 4⟩ = [] ∧
      faceLog ⟨0, 0, 4⟩ = []) ∧
    ((⟨1, 0, 2⟩ : Face).kind = 1 ∧ (⟨1, 0, 2⟩ : Face).num_vertices < 3 ∧
      faceVerts [vdemoA] ⟨1, 0, 2⟩ = [] ∧ faceTris [vdemoA] ⟨1, 0, 2⟩ = [] ∧
      faceLog ⟨1, 0, 2⟩ = ["Invalid face"]) ∧
    triangulate [vdemoA] (⟨1, 0, 2⟩ :: [⟨0, 0, 4⟩]) =
      (faceVerts [vdemoA] ⟨1, 0, 2⟩ ++ (triangulate [vdemoA] [⟨0, 0, 4⟩]).1,
       faceTris [vdemoA] ⟨1, 0, 2⟩ ++ (triangulate [vdemoA] [⟨0, 0, 4⟩]).2.1,
       faceLog ⟨1, 0, 2⟩ ++ (triangulate [vdemoA] [⟨0, 0, 4⟩]).2.2) :=
  ⟨⟨by decide, (c8_skippable_faces [vdemoA] ⟨0, 0, 4⟩ []).1 (by decide)⟩,
   ⟨rfl, by decide, (c8_skippable_faces [vdemoA] ⟨1, 0, 2⟩ []).2.1 rfl (by decide)⟩,
   (c8_skippable_faces [vdemoA] ⟨1, 0, 2⟩ [⟨0, 0, 4⟩]).2.2⟩

/- ===== Claim C7 ===== -/

/-- C7: for every consumed lump (Vertices, Faces, MeshVerts), a
non-positive computed record count (lump length over record size, in
truncating i32 division) makes the load fail with FormatError and no
map value is returned. -/
theorem c7_nonpositive_count_fails (f : FileModel)
    (h : Int.tdiv (f.header.lumps LumpKind.Vertices).length vertexRecordSize ≤ 0 ∨
         Int.tdiv (f.header.lumps LumpKind.Faces).length faceRecordSize ≤ 0 ∨
         Int.tdiv (f.header.lumps LumpKind.MeshVerts).length meshVertRecordSize ≤ 0) :
    MapNew f = Except.error LoadError.FormatError := by
  unfold MapNew
  by_cases hm : magicOk f.header
  · rw [if_pos hm]
    rcases h with h | h | h
    · have hv : read_verts f = Except.error LoadError.FormatError := by
        unfold read_verts
        dsimp only
        rw [if_neg (by omega)]
      rw [hv]
    · cases hv : read_verts f with
      | error e =>
        have he := read_verts_error f e hv
        subst he
        rfl
      | ok val =>
        obtain ⟨vs, bb⟩ := val
        have hf : read_faces f = Except.error LoadError.FormatError := by
          unfold read_faces
          dsimp only
          rw [if_neg (by omega)]
        rw [hf]
    · cases hv : read_verts f with
      | error e =>
        have he := read_verts_error f e hv
        subst he
        rfl
      | ok val =>
        obtain ⟨vs, bb⟩ := val
        cases hf : read_faces f with
        | error e =>
          have he := read_faces_error f e hf
          subst he
          rfl
        | ok fs =>
          have hmv : read_mesh_verts f = Except.error LoadError.FormatError := by
            unfold read_mesh_verts
            dsimp only
            rw [if_neg (by omega)]
          rw [hmv]
  · rw [if_neg hm]

/-- File with an empty vertex lump, used as the C7 witness input. -/
def emptyLumpFile : FileModel :=
  { header :=
      { magic := (73, 66, 83, 80), version := 46, lumps := fun _ => ⟨0, 0⟩ },
    vertexAt := fun _ => default,
    faceAt := fun _ => default,
    meshVertAt := fun _ => default }

/-- C7 witness: a zero-length vertex lump gives record count 0 and the
load fails with FormatError. -/
theorem c7_nonpositive_count_fails_witness :
    (Int.tdiv (emptyLumpFile.header.lumps LumpKind.Vertices).length vertexRecordSize ≤ 0 ∨
     Int.tdiv (emptyLumpFile.header.lumps LumpKind.Faces).length faceRecordSize ≤ 0 ∨
     Int.tdiv (emptyLumpFile.header.lumps LumpKind.MeshVerts).length meshVertRecordSize ≤ 0) ∧
    MapNew emptyLumpFile = Except.error LoadError.FormatError :=
  ⟨Or.inl (by decide), c7_nonpositive_count_fails emptyLumpFile (Or.inl (by decide))⟩

/- ===== Re-centering lemmas (claim C6) ===== -/

theorem Vec3f.sub_x (a b : Vec3f) : (a - b).x = a.x - b.x := rfl

theorem Vec3f.sub_y (a b : Vec3f) : (a - b).y = a.y - b.y := rfl

theorem Vec3f.sub_z (a b : Vec3f) : (a - b).z = a.z - b.z := rfl

theorem Vec3f.add_x (a b : Vec3f) : (a + b).x = a.x + b.x := rfl

theorem Vec3f.add_y (a b : Vec3f) : (a + b).y = a.y + b.y := rfl

theorem Vec3f.add_z (a b : Vec3f) : (a + b).z = a.z + b.z := rfl

theorem foldl_vmin_x (l : List Vertex) (a : Vec3f) :
    (l.foldl (fun m v => vmin m v.position) a).x =
      l.foldl (fun m v => min m v.position.x) a.x := by
  induction l generalizing a with
  | nil => rfl
  | cons v t ih =>
    rw [List.foldl_cons, List.foldl_cons, ih]
    rfl

theorem foldl_vmin_y (l : List Vertex) (a : Vec3f) :
    (l.foldl (fun m v => vmin m v.position) a).y =
      l.foldl (fun m v => min m v.position.y) a.y := by
  induction l generalizing a with
  | nil => rfl
  | cons v t ih =>
    rw [List.foldl_cons, List.foldl_cons, ih]
    rfl

theorem foldl_vmin_z (l : List Vertex) (a : Vec3f) :
    (l.foldl (fun m v => vmin m v.position) a).z =
      l.foldl (fun m v => min m v.position.z) a.z := by
  induction l generalizing a with
  | nil => rfl
  | cons v t ih =>
    rw [List.foldl_cons, List.foldl_cons, ih]
    rfl

theorem foldl_vmax_x (l : List Vertex) (a : Vec3f) :
    (l.foldl (fun m v => vmax m v.position) a).x =
      l.foldl (fun m v => max m v.position.x) a.x := by
  induction l generalizing a with
  | nil => rfl
  | cons v t ih =>
    rw [List.foldl_cons, List.foldl_cons, ih]
    rfl

theorem foldl_vmax_y (l : List Vertex) (a : Vec3f) :
    (l.foldl (fun m v => vmax m v.position) a).y =
      l.foldl (fun m v => max m v.position.y) a.y := by
  induction l generalizing a with
  | nil => rfl
  | cons v t ih =>
    rw [List.foldl_cons, List.foldl_cons, ih]
    rfl

theorem foldl_vmax_z (l : List Vertex) (a : Vec3f) :
    (l.foldl (fun m v => vmax m v.position) a).z =
      l.foldl (fun m v => max m v.position.z) a.z := by
  induction l generalizing a with
  | nil => rfl
  | cons v t ih =>
    rw [List.foldl_cons, List.foldl_cons, ih]
    rfl

theorem foldl_min_shift (l : List Vertex) (a c : ℚ) (f : Vertex → ℚ) :
    l.foldl (fun m v => min m (f v - c)) (a - c) =
      l.foldl (fun m v => min m (f v)) a - c := by
  induction l generalizing a with
  | nil => rfl
  | cons v t ih => simp only [List.foldl_cons, min_sub_sub_right, ih]

theorem foldl_max_shift (l : List Vertex) (a c : ℚ) (f : Vertex → ℚ) :
    l.foldl (fun m v => max m (f v - c)) (a - c) =
      l.foldl (fun m v => max m (f v)) a - c := by
  induction l generalizing a with
  | nil => rfl
  | cons v t ih => simp only [List.foldl_cons, max_sub_sub_right, ih]

theorem foldl_min_is_lower_bound (l : List Vertex) (a : ℚ) (f : Vertex → ℚ) :
    l.foldl (fun m v => min m (f v)) a ≤ a ∧
      ∀ v ∈ l, l.foldl (fun m v => min m (f v)) a ≤ f v := by
  induction l generalizing a with
  | nil => exact ⟨le_refl a, by simp⟩
  | cons q t ih =>
    refine ⟨?_, ?_⟩
    · exact le_trans (ih (min a (f q))).1 (min_le_left a (f q))
    · intro v hv
      rcases List.mem_cons.mp hv with rfl | hv
      · exact le_trans (ih (min a (f v))).1 (min_le_right a (f v))
      · exact (ih (min a (f q))).2 v hv

theorem foldl_max_is_upper_bound (l : List Vertex) (a : ℚ) (f : Vertex → ℚ) :
    a ≤ l.foldl (fun m v => max m (f v)) a ∧
      ∀ v ∈ l, f v ≤ l.foldl (fun m v => max m (f v)) a := by
  induction l generalizing a with
  | nil => exact ⟨le_refl a, by simp⟩
  | cons q t ih =>
    refine ⟨?_, ?_⟩
    · exact le_trans (le_max_left a (f q)) (ih (max a (f q))).1
    · intro v hv
      rcases List.mem_cons.mp hv with rfl | hv
      · exact le_trans (le_max_right a (f v)) (ih (max a (f v))).1
      · exact (ih (max a (f q))).2 v hv

theorem foldl_min_is_attained (l : List Vertex) (a : ℚ) (f : Vertex → ℚ) :
    l.foldl (fun m v => min m (f v)) a = a ∨
      ∃ v ∈ l, l.foldl (fun m v => min m (f v)) a = f v := by
  induction l generalizing a with
  | nil => exact Or.inl rfl
  | cons q t ih =>
    rcases ih (min a (f q)) with h | h
    · rcases le_total a (f q) with hle | hle
      · left
        rw [List.foldl_cons, h, min_eq_left hle]
      · right
        refine ⟨q, List.mem_cons_self q t, ?_⟩
        rw [List.foldl_cons, h, min_eq_right hle]
    · right
      obtain ⟨v, hv, he⟩ := h
      exact ⟨v, List.mem_cons_of_mem q hv, he⟩

theorem foldl_max_is_attained (l : List Vertex) (a : ℚ) (f : Vertex → ℚ) :
    l.foldl (fun m v => max m (f v)) a = a ∨
      ∃ v ∈ l, l.foldl (fun m v => max m (f v)) a = f v := by
  induction l generalizing a with
  | nil => exact Or.inl rfl
  | cons q t ih =>
    rcases ih (max a (f q)) with h | h
    · rcases le_total (f q) a with hle | hle
      · left
        rw [List.foldl_cons, h, max_eq_left hle]
      · right
        refine ⟨q, List.mem_cons_self q t, ?_⟩
        rw [List.foldl_cons, h, max_eq_right hle]
    · right
      obtain ⟨v, hv, he⟩ := h
      exact ⟨v, List.mem_cons_of_mem q hv, he⟩

theorem Vec3f.ext_xyz (a b : Vec3f) (hx : a.x = b.x) (hy : a.y = b.y)
    (hz : a.z = b.z) : a = b := by
  cases a; cases b; simp_all

theorem meshMin_recenter_x (vs : List Vertex) (h : vs ≠ []) :
    (meshMin (recenter vs)).x = (meshMin vs).x - (meshCenter vs).x := by
  unfold meshMin
  rw [foldl_vmin_x, foldl_vmin_x]
  unfold recenter
  rw [List.foldl_map]
  have hh : (vs.map (fun v : Vertex => { v with position := v.position - meshCenter vs })).headI.position.x
      = vs.headI.position.x - (meshCenter vs).x := by
    cases vs with
    | nil => exact absurd rfl h
    | cons a t => rfl
  rw [hh]
  exact foldl_min_shift vs vs.headI.position.x (meshCenter vs).x (fun v => v.position.x)

theorem meshMin_recenter_y (vs : List Vertex) (h : vs ≠ []) :
    (meshMin (recenter vs)).y = (meshMin vs).y - (meshCenter vs).y := by
  unfold meshMin
  rw [foldl_vmin_y, foldl_vmin_y]
  unfold recenter
  rw [List.foldl_map]
  have hh : (vs.map (fun v : Vertex => { v with position := v.position - meshCenter vs })).headI.position.y
      = vs.headI.position.y - (meshCenter vs).y := by
    cases vs with
    | nil => exact absurd rfl h
    | cons a t => rfl
  rw [hh]
  exact foldl_min_shift vs vs.headI.position.y (meshCenter vs).y (fun v => v.position.y)

theorem meshMin_recenter_z (vs : List Vertex) (h : vs ≠ []) :
    (meshMin (recenter vs)).z = (meshMin vs).z - (meshCenter vs).z := by
  unfold meshMin
  rw [foldl_vmin_z, foldl_vmin_z]
  unfold recenter
  rw [List.foldl_map]
  have hh : (vs.map (fun v : Vertex => { v with position := v.position - meshCenter vs })).headI.position.z
      = vs.headI.position.z - (meshCenter vs).z := by
    cases vs with
    | nil => exact absurd rfl h
    | cons a t => rfl
  rw [hh]
  exact foldl_min_shift vs vs.headI.position.z (meshCenter vs).z (fun v => v.position.z)

theorem meshMax_recenter_x (vs : List Vertex) (h : vs ≠ []) :
    (meshMax (recenter vs)).x = (meshMax vs).x - (meshCenter vs).x := by
  unfold meshMax
  rw [foldl_vmax_x, foldl_vmax_x]
  unfold recenter
  rw [List.foldl_map]
  have hh : (vs.map (fun v : Vertex => { v with position := v.position - meshCenter vs })).headI.position.x
      = vs.headI.position.x - (meshCenter vs).x := by
    cases vs with
    | nil => exact absurd rfl h
    | cons a t => rfl
  rw [hh]
  exact foldl_max_shift vs vs.headI.position.x (meshCenter vs).x (fun v => v.position.x)

theorem meshMax_recenter_y (vs : List Vertex) (h : vs ≠ []) :
    (meshMax (recenter vs)).y = (meshMax vs).y - (meshCenter vs).y := by
  unfold meshMax
  rw [foldl_vmax_y, foldl_vmax_y]
  unfold recenter
  rw [List.foldl_map]
  have hh : (vs.map (fun v : Vertex => { v with position := v.position - meshCenter vs })).headI.position.y
      = vs.headI.position.y - (meshCenter vs).y := by
    cases vs with
    | nil => exact absurd rfl h
    | cons a t => rfl
  rw [hh]
  exact foldl_max_shift vs vs.headI.position.y (meshCenter vs).y (fun v => v.position.y)

theorem meshMax_recenter_z (vs : List Vertex) (h : vs ≠ []) :
    (meshMax (recenter vs)).z = (meshMax vs).z - (meshCenter vs).z := by
  unfold meshMax
  rw [foldl_vmax_z, foldl_vmax_z]
  unfold recenter
  rw [List.foldl_map]
  have hh : (vs.map (fun v : Vertex => { v with position := v.position - meshCenter vs })).headI.position.z
      = vs.headI.position.z - (meshCenter vs).z := by
    cases vs with
    | nil => exact absurd rfl h
    | cons a t => rfl
  rw [hh]
  exact foldl_max_shift vs vs.headI.position.z (meshCenter vs).z (fun v => v.position.z)

/- ===== Claim C6 ===== -/

/-- C6: for every non-empty vertex list, the center subtracted during
re-centering equals, per axis, (min + max) / 2 of the positions under
true componentwise min/max (meshMin and meshMax are lower/upper bounds
attained on the list), and after re-centering the per-axis minimum and
maximum sum to zero exactly (floats are modelled by exact rationals, so
the tolerance is zero). -/
theorem c6_recenter_symmetry (vs : List Vertex) (h : vs ≠ []) :
    meshCenter vs = ⟨((meshMin vs).x + (meshMax vs).x) / 2,
                     ((meshMin vs).y + (meshMax vs).y) / 2,
                     ((meshMin vs).z + (meshMax vs).z) / 2⟩ ∧
    (∀ v ∈ vs,
      (meshMin vs).x ≤ v.position.x ∧ v.position.x ≤ (meshMax vs).x ∧
      (meshMin vs).y ≤ v.position.y ∧ v.position.y ≤ (meshMax vs).y ∧
      (meshMin vs).z ≤ v.position.z ∧ v.position.z ≤ (meshMax vs).z) ∧
    ((∃ v ∈ vs, v.position.x = (meshMin vs).x) ∧
     (∃ v ∈ vs, v.position.x = (meshMax vs).x) ∧
     (∃ v ∈ vs, v.position.y = (meshMin vs).y) ∧
     (∃ v ∈ vs, v.position.y = (meshMax vs).y) ∧
     (∃ v ∈ vs, v.position.z = (meshMin vs).z) ∧
     (∃ v ∈ vs, v.position.z = (meshMax vs).z)) ∧
    meshMin (recenter vs) + meshMax (recenter vs) = Vec3f.zero := by
  have hhead : vs.headI ∈ vs := by
    cases vs with
    | nil => exact absurd rfl h
    | cons a t => exact List.mem_cons_self a t
  refine ⟨?_, ?_, ?_, ?_⟩
  · unfold meshCenter
    dsimp only
    refine Vec3f.ext_xyz _ _ ?_ ?_ ?_ <;> dsimp only <;> ring
  · intro v hv
    refine ⟨?_, ?_, ?_, ?_, ?_, ?_⟩
    · rw [meshMin, foldl_vmin_x]
      exact (foldl_min_is_lower_bound vs vs.headI.position.x (fun v => v.position.x)).2 v hv
    · rw [meshMax, foldl_vmax_x]
      exact (foldl_max_is_upper_bound vs vs.headI.position.x (fun v => v.position.x)).2 v hv
    · rw [meshMin, foldl_vmin_y]
      exact (foldl_min_is_lower_bound vs vs.headI.position.y (fun v => v.position.y)).2 v hv
    · rw [meshMax, foldl_vmax_y]
      exact (foldl_max_is_upper_bound vs vs.headI.position.y (fun v => v.position.y)).2 v hv
    · rw [meshMin, foldl_vmin_z]
      exact (foldl_min_is_lower_bound vs vs.headI.position.z (fun v => v.position.z)).2 v hv
    · rw [meshMax, foldl_vmax_z]
      exact (foldl_max_is_upper_bound vs vs.headI.position.z (fun v => v.position.z)).2 v hv
  · refine ⟨?_, ?_, ?_, ?_, ?_, ?_⟩
    · rw [meshMin, foldl_vmin_x]
      rcases foldl_min_is_attained vs vs.headI.position.x (fun v => v.position.x) with he | he
      · exact ⟨vs.headI, hhead, he.symm⟩
      · obtain ⟨v, hv, he⟩ := he
        exact ⟨v, hv, he.symm⟩
    · rw [meshMax, foldl_vmax_x]
      rcases foldl_max_is_attained vs vs.headI.position.x (fun v => v.position.x) with he | he
      · exact ⟨vs.headI, hhead, he.symm⟩
      · obtain ⟨v, hv, he⟩ := he
        exact ⟨v, hv, he.symm⟩
    · rw [meshMin, foldl_vmin_y]
      rcases foldl_min_is_attained vs vs.headI.position.y (fun v => v.position.y) with he | he
      · exact ⟨vs.headI, hhead, he.symm⟩
      · obtain ⟨v, hv, he⟩ := he
        exact ⟨v, hv, he.symm⟩
    · rw [meshMax, foldl_vmax_y]
      rcases foldl_max_is_attained vs vs.headI.position.y (fun v => v.position.y) with he | he
      · exact ⟨vs.headI, hhead, he.symm⟩
      · obtain ⟨v, hv, he⟩ := he
        exact ⟨v, hv, he.symm⟩
    · rw [meshMin, foldl_vmin_z]
      rcases foldl_min_is_attained vs vs.headI.position.z (fun v => v.position.z) with he | he
      · exact ⟨vs.headI, hhead, he.symm⟩
      · obtain ⟨v, hv, he⟩ := he
        exact ⟨v, hv, he.symm⟩
    · rw [meshMax, foldl_vmax_z]
      rcases foldl_max_is_attained vs vs.headI.position.z (fun v => v.position.z) with he | he
      · exact ⟨vs.headI, hhead, he.symm⟩
      · obtain ⟨v, hv, he⟩ := he
        exact ⟨v, hv, he.symm⟩
  · have hcx : (meshCenter vs).x =
        (meshMax vs).x - (((meshMax vs).x - (meshMin vs).x) / 2) := rfl
    have hcy : (meshCenter vs).y =
        (meshMax vs).y - (((meshMax vs).y - (meshMin vs).y) / 2) := rfl
    have hcz : (meshCenter vs).z =
        (meshMax vs).z - (((meshMax vs).z - (meshMin vs).z) / 2) := rfl
    refine Vec3f.ext_xyz _ _ ?_ ?_ ?_
    · rw [Vec3f.add_x, meshMin_recenter_x vs h, meshMax_recenter_x vs h, hcx]
      show _ = (0 : ℚ)
      ring
    · rw [Vec3f.add_y, meshMin_recenter_y vs h, meshMax_recenter_y vs h, hcy]
      show _ = (0 : ℚ)
      ring
    · rw [Vec3f.add_z, meshMin_recenter_z vs h, meshMax_recenter_z vs h, hcz]
      show _ = (0 : ℚ)
      ring

/-- C6 witness at a one-vertex list. -/
theorem c6_recenter_symmetry_witness :
    ([vdemo] ≠ ([] : List Vertex)) ∧
    (meshCenter [vdemo] = ⟨((meshMin [vdemo]).x + (meshMax [vdemo]).x) / 2,
                           ((meshMin [vdemo]).y + (meshMax [vdemo]).y) / 2,
                           ((meshMin [vdemo]).z + (meshMax [vdemo]).z) / 2⟩ ∧
     (∀ v ∈ [vdemo],
       (meshMin [vdemo]).x ≤ v.position.x ∧ v.position.x ≤ (meshMax [vdemo]).x ∧
       (meshMin [vdemo]).y ≤ v.position.y ∧ v.position.y ≤ (meshMax [vdemo]).y ∧
       (meshMin [vdemo]).z ≤ v.position.z ∧ v.position.z ≤ (meshMax [vdemo]).z) ∧
     ((∃ v ∈ [vdemo], v.position.x = (meshMin [vdemo]).x) ∧
      (∃ v ∈ [vdemo], v.position.x = (meshMax [vdemo]).x) ∧
      (∃ v ∈ [vdemo], v.position.y = (meshMin [vdemo]).y) ∧
      (∃ v ∈ [vdemo], v.position.y = (meshMax [vdemo]).y) ∧
      (∃ v ∈ [vdemo], v.position.z = (meshMin [vdemo]).z) ∧
      (∃ v ∈ [vdemo], v.position.z = (meshMax [vdemo]).z)) ∧
     meshMin (recenter [vdemo]) + meshMax (recenter [vdemo]) = Vec3f.zero) :=
  ⟨by simp, c6_recenter_symmetry [vdemo] (by simp)⟩

/- ===== Claim C10 ===== -/

/-- The mixed-corner invariant of the running bounding box: top_left
tracks the minimum on X but the maximum on Y and Z. -/
def bbInvariant (bb : BB3) : Prop :=
  bb.top_left.x ≤ bb.bottom_right.x ∧
  bb.bottom_right.y ≤ bb.top_left.y ∧
  bb.bottom_right.z ≤ bb.top_left.z

instance (bb : BB3) : Decidable (bbInvariant bb) := by
  unfold bbInvariant; infer_instance

theorem bbUpdate_invariant (bb : BB3) (p : Vec3f) (h : bbInvariant bb) :
    bbInvariant (bbUpdate bb p) := by
  rcases bb with ⟨⟨ax, ay, az⟩, ⟨bx, cy, cz⟩⟩
  rcases p with ⟨px, py, pz⟩
  obtain ⟨h1, h2, h3⟩ := h
  dsimp only [bbInvariant] at h1 h2 h3 ⊢
  unfold bbUpdate
  dsimp only
  split_ifs <;> dsimp only at * <;>
    exact ⟨by linarith, by linarith, by linarith⟩

theorem bbRun_invariant (ps : List Vec3f) : bbInvariant (bbRun ps) := by
  have hfold : ∀ (l : List Vec3f) (bb : BB3),
      bbInvariant bb → bbInvariant (l.foldl bbUpdate bb) := by
    intro l
    induction l with
    | nil => intro bb hb; exact hb
    | cons q t ih => intro bb hb; exact ih _ (bbUpdate_invariant bb q hb)
  cases ps with
  | nil => exact ⟨le_refl _, le_refl _, le_refl _⟩
  | cons p rest => exact hfold rest ⟨p, p⟩ ⟨le_refl _, le_refl _, le_refl _⟩

/-- C10: the running bounding box satisfies the mixed-corner invariant
(top_left minimal on X, maximal on Y and Z, each against bottom_right),
the invariant is preserved by every per-vertex bbUpdate, holds for the
box folded over any position sequence, and therefore holds for the box
produced by the vertex lump load. -/
theorem c10_running_box_mixed_corners :
    (∀ (bb : BB3) (p : Vec3f), bbInvariant bb → bbInvariant (bbUpdate bb p)) ∧
    (∀ ps : List Vec3f, bbInvariant (bbRun ps)) ∧
    (∀ (f : FileModel) (vs : List Vertex) (bb : BB3),
      read_verts f = Except.ok (vs, bb) → bbInvariant bb) := by
  refine ⟨bbUpdate_invariant, bbRun_invariant, ?_⟩
  intro f vs bb h
  unfold read_verts at h
  dsimp only at h
  split at h
  · have hbb := (Prod.mk.injEq _ _ _ _).mp (Except.ok.inj h)
    rw [← hbb.2]
    exact bbRun_invariant _
  · exact absurd h (by simp)

/-- The vertex list and bounding box loaded from the demonstration
file. -/
def demoVertsBB : List Vertex × BB3 :=
  match read_verts demoFile with
  | Except.ok p => p
  | Except.error _ => ([], BB3.zero)

/-- C10 witness: the invariant concretely, under one update, under a
fold, and on the box loaded from the demonstration file. -/
theorem c10_running_box_mixed_corners_witness :
    (bbInvariant BB3.zero ∧ bbInvariant (bbUpdate BB3.zero ⟨1, 2, 3⟩)) ∧
    bbInvariant (bbRun [⟨1, 2, 3⟩, ⟨4, 5, 6⟩]) ∧
    (read_verts demoFile = Except.ok (demoVertsBB.1, demoVertsBB.2) ∧
      bbInvariant demoVertsBB.2) :=
  ⟨⟨by decide, c10_running_box_mixed_corners.1 BB3.zero ⟨1, 2, 3⟩ (by decide)⟩,
   c10_running_box_mixed_corners.2.1 [⟨1, 2, 3⟩, ⟨4, 5, 6⟩],
   rfl,
   c10_running_box_mixed_corners.2.2 demoFile demoVertsBB.1 demoVertsBB.2 rfl⟩

/- ===== State stack (src/state/director.rs) ===== -/

/-- A state object on the stack: its unique key and, for each per-frame
and input hook of the State trait, the boolean the hook returns (true
means the event is captured and stops propagating). The load and unload
lifecycle hooks are observed through an explicit hook log. -/
structure DState where
  key : String
  update_captures : Bool
  render_captures : Bool
  key_action_captures : Bool
  key_char_captures : Bool
  mouse_action_captures : Bool
  mouse_moved_captures : Bool
deriving DecidableEq, Repr

instance : Inhabited DState := ⟨⟨"", false, false, false, false, false, false⟩⟩

/-- The state stack, mirroring the Director struct (director.rs lines
52-55); push appends at the back of the vector, so the back is the top
of the stack. -/
structure Director where
  states : List DState
deriving DecidableEq, Repr

/-- Lifecycle hook invocations, recorded in call order. -/
inductive Hook
  | load (key : String)
  | unload (key : String)
deriving DecidableEq, Repr

/-- Visit states in the given order, calling the hook on each until one
returns true (the `if ... { break; }` loops of director.rs lines
144-204): the result is exactly the list of states whose hook was
invoked, in invocation order. -/
def dispatchStop (captures : DState → Bool) : List DState → List DState
  | [] => []
  | s :: rest => if captures s then [s] else s :: dispatchStop captures rest

/-- Director::push (director.rs lines 84-88): load the new state and
append it at the back (top) of the stack. -/
def Director.push (d : Director) (s : DState) : Director × List Hook :=
  (⟨d.states ++ [s]⟩, [Hook.load s.key])

/-- Director::pop (lines 90-94): remove the top (last) state and call
unload on it; popping an empty stack is a task failure (none). -/
def Director.pop (d : Director) : Option (Director × List Hook) :=
  match d.states.getLast? with
  | none => none
  | some s => some (⟨d.states.dropLast⟩, [Hook.unload s.key])

/-- The rposition search of director.rs (lines 99-100 and 116-117): the
index of the last element satisfying the predicate. -/
def rposition (p : DState → Bool) : List DState → Option Nat
  | [] => none
  | a :: t =>
    match rposition p t with
    | some i => some (i + 1)
    | none => if p a then some 0 else none

/-- Director::pull (lines 97-110): remove the last state with the given
key and unload it; with no match, only a debug log (no hook call). -/
def Director.pull (d : Director) (key : String) : Director × List Hook :=
  match rposition (fun st => st.key == key) d.states with
  | some i => (⟨d.states.eraseIdx i⟩, [Hook.unload (d.states.getD i default).key])
  | none => (d, [])

/-- Director::swap (lines 114-130): replace the last state with the
given key in place, unloading the replaced state and then loading the
new one; with no match, only a debug log. -/
def Director.swap (d : Director) (key : String) (s : DState) : Director × List Hook :=
  match rposition (fun st => st.key == key) d.states with
  | some i =>
    (⟨d.states.set i s⟩, [Hook.unload (d.states.getD i default).key, Hook.load s.key])
  | none => (d, [])

/-- Director::clear (lines 133-137): pop and unload every state from
the top down. -/
def Director.clear (d : Director) : Director × List Hook :=
  (⟨[]⟩, d.states.reverse.map (fun s => Hook.unload s.key))

/-- Director::update (lines 140-149): asserts a non-empty stack, then
iterates mut_iter, the FRONT of the vector first (the oldest-pushed
state), stopping at the first state whose update returns true. The
value is the list of states whose hook ran, in call order. -/
def Director.update (d : Director) : Option (List DState) :=
  if d.states.length > 0 then
    some (dispatchStop (fun s => s.update_captures) d.states)
  else none

/-- Director::render (lines 151-160): same front-first iteration as
update, keyed on the render hook. -/
def Director.render (d : Director) : Option (List DState) :=
  if d.states.length > 0 then
    some (dispatchStop (fun s => s.render_captures) d.states)
  else none

/-- Director::key_action (lines 163-172): asserts non-empty, then
iterates mut_rev_iter, the BACK of the vector first (the
most-recently-pushed state), stopping at the first capture. -/
def Director.key_action (d : Director) : Option (List DState) :=
  if d.states.length > 0 then
    some (dispatchStop (fun s => s.key_action_captures) d.states.reverse)
  else none

/-- Director::key_char (lines 174-183): back-first iteration on the
key_char hook. -/
def Director.key_char (d : Director) : Option (List DState) :=
  if d.states.length > 0 then
    some (dispatchStop (fun s => s.key_char_captures) d.states.reverse)
  else none

/-- Director::mouse_action (lines 185-194): back-first iteration on the
mouse_action hook. -/
def Director.mouse_action (d : Director) : Option (List DState) :=
  if d.states.length > 0 then
    some (dispatchStop (fun s => s.mouse_action_captures) d.states.reverse)
  else none

/-- Director::mouse_moved (lines 196-205): back-first iteration on the
mouse_moved hook. -/
def Director.mouse_moved (d : Director) : Option (List DState) :=
  if d.states.length > 0 then
    some (dispatchStop (fun s => s.mouse_moved_captures) d.states.reverse)
  else none

/- ===== Dispatch order lemmas (claim C3) ===== -/

theorem getLast?_cons_of_ne_nil {α : Type} (a : α) (l : List α) (h : l ≠ []) :
    (a :: l).getLast? = l.getLast? := by
  cases l with
  | nil => exact absurd rfl h
  | cons b u => rfl

theorem dropLast_cons_ne_nil {α : Type} (a : α) (l : List α) (h : l ≠ []) :
    (a :: l).dropLast = a :: l.dropLast := by
  cases l with
  | nil => exact absurd rfl h
  | cons b u => rfl

theorem dispatchStop_spec (captures : DState → Bool) (l : List DState) :
    dispatchStop captures l <+: l ∧
    (∀ s ∈ (dispatchStop captures l).dropLast, captures s = false) ∧
    (dispatchStop captures l = l ∨
      ∃ s, (dispatchStop captures l).getLast? = some s ∧ captures s = true) := by
  induction l with
  | nil => exact ⟨List.prefix_refl _, by simp [dispatchStop], Or.inl rfl⟩
  | cons a t ih =>
    by_cases hc : captures a = true
    · refine ⟨?_, ?_, Or.inr ⟨a, ?_, hc⟩⟩
      · simp only [dispatchStop, hc, if_true]
        exact ⟨t, rfl⟩
      · simp [dispatchStop, hc]
      · simp [dispatchStop, hc]
    · obtain ⟨ih1, ih2, ih3⟩ := ih
      have hcf : captures a = false := by
        cases hval : captures a with
        | false => rfl
        | true => exact absurd hval hc
      have hd : dispatchStop captures (a :: t) = a :: dispatchStop captures t := by
        simp [dispatchStop, hc]
      refine ⟨?_, ?_, ?_⟩
      · rw [hd]
        obtain ⟨u, hu⟩ := ih1
        exact ⟨u, by rw [List.cons_append, hu]⟩
      · rw [hd]
        intro s hs
        cases hrest : dispatchStop captures t with
        | nil =>
          rw [hrest] at hs
          simp at hs
        | cons b u =>
          rw [hrest] at hs
          rw [dropLast_cons_ne_nil a (b :: u) (by simp)] at hs
          rcases List.mem_cons.mp hs with heq | hs2
          · rw [heq]
            exact hcf
          · rw [hrest] at ih2
            exact ih2 s hs2
      · rcases ih3 with heq | ⟨s, hs, hcap⟩
        · left
          rw [hd, heq]
        · right
          have hne : dispatchStop captures t ≠ [] := by
            intro he
            rw [he] at hs
            exact Option.noConfusion hs
          refine ⟨s, ?_, hcap⟩
          rw [hd, getLast?_cons_of_ne_nil a _ hne]
          exact hs

/-- Oldest-pushed demonstration state; captures every event. -/
def sOld : DState := ⟨"old", true, true, true, true, true, true⟩

/-- Most-recently-pushed demonstration state; captures every event. -/
def sNew : DState := ⟨"new", true, true, true, true, true, true⟩

/-- C3 counterexample: on the stack [sOld, sNew] (sNew pushed last, so
sNew is the top), update is dispatched to the OLDEST state sOld first
(and stops there), not to the most-recently-pushed sNew as the claim
states; key_action is dispatched to the most-recently-pushed sNew
first, not to the oldest sOld. The claimed directions are exactly
inverted. -/
theorem c3_counterexample_dispatch_order :
    (Director.push (Director.push ⟨[]⟩ sOld).1 sNew).1 = ⟨[sOld, sNew]⟩ ∧
    Director.update ⟨[sOld, sNew]⟩ = some [sOld] ∧
    ¬ Director.update ⟨[sOld, sNew]⟩ = some [sNew] ∧
    Director.key_action ⟨[sOld, sNew]⟩ = some [sNew] ∧
    ¬ Director.key_action ⟨[sOld, sNew]⟩ = some [sOld] := by decide

/-- C3 amended: update and render are dispatched bottom-to-top (the
OLDEST-pushed state first, front of the vector), stopping at the first
state that returns true, while the input events (key_action, key_char,
mouse_action, mouse_moved) are dispatched top-to-bottom (the
MOST-RECENTLY-pushed state first, back of the vector), stopping at the
first state that returns true; push appends at the back. The visited
list is a prefix of the stack in the respective direction, every
visited state but the last returned false, and the dispatch stopped
either at a capturing state or at the end of the stack. -/
theorem c3_dispatch_directions (d : Director) (h : d.states ≠ []) :
    (∀ (dd : Director) (s : DState), (Director.push dd s).1.states = dd.states ++ [s]) ∧
    (∃ v, Director.update d = some v ∧ v <+: d.states ∧
      (∀ s ∈ v.dropLast, s.update_captures = false) ∧
      (v = d.states ∨ ∃ s, v.getLast? = some s ∧ s.update_captures = true)) ∧
    (∃ v, Director.render d = some v ∧ v <+: d.states ∧
      (∀ s ∈ v.dropLast, s.render_captures = false) ∧
      (v = d.states ∨ ∃ s, v.getLast? = some s ∧ s.render_captures = true)) ∧
    (∃ v, Director.key_action d = some v ∧ v <+: d.states.reverse ∧
      (∀ s ∈ v.dropLast, s.key_action_captures = false) ∧
      (v = d.states.reverse ∨ ∃ s, v.getLast? = some s ∧ s.key_action_captures = true)) ∧
    (∃ v, Director.key_char d = some v ∧ v <+: d.states.reverse ∧
      (∀ s ∈ v.dropLast, s.key_char_captures = false) ∧
      (v = d.states.reverse ∨ ∃ s, v.getLast? = some s ∧ s.key_char_captures = true)) ∧
    (∃ v, Director.mouse_action d = some v ∧ v <+: d.states.reverse ∧
      (∀ s ∈ v.dropLast, s.mouse_action_captures = false) ∧
      (v = d.states.reverse ∨ ∃ s, v.getLast? = some s ∧ s.mouse_action_captures = true)) ∧
    (∃ v, Director.mouse_moved d = some v ∧ v <+: d.states.reverse ∧
      (∀ s ∈ v.dropLast, s.mouse_moved_captures = false) ∧
      (v = d.states.reverse ∨ ∃ s, v.getLast? = some s ∧ s.mouse_moved_captures = true)) := by
  have hlen : d.states.length > 0 := List.length_pos.mpr h
  refine ⟨fun dd s => rfl, ?_, ?_, ?_, ?_, ?_, ?_⟩
  · exact ⟨_, by rw [Director.update, if_pos hlen], dispatchStop_spec _ d.states⟩
  · exact ⟨_, by rw [Director.render, if_pos hlen], dispatchStop_spec _ d.states⟩
  · exact ⟨_, by rw [Director.key_action, if_pos hlen], dispatchStop_spec _ d.states.reverse⟩
  · exact ⟨_, by rw [Director.key_char, if_pos hlen], dispatchStop_spec _ d.states.reverse⟩
  · exact ⟨_, by rw [Director.mouse_action, if_pos hlen], dispatchStop_spec _ d.states.reverse⟩
  · exact ⟨_, by rw [Director.mouse_moved, if_pos hlen], dispatchStop_spec _ d.states.reverse⟩

/-- C3 witness: the amended statement applied at the two-state stack. -/
theorem c3_dispatch_directions_witness :
    ((⟨[sOld, sNew]⟩ : Director).states ≠ []) ∧
    ((∀ (dd : Director) (s : DState), (Director.push dd s).1.states = dd.states ++ [s]) ∧
     (∃ v, Director.update ⟨[sOld, sNew]⟩ = some v ∧ v <+: [sOld, sNew] ∧
       (∀ s ∈ v.dropLast, s.update_captures = false) ∧
       (v = [sOld, sNew] ∨ ∃ s, v.getLast? = some s ∧ s.update_captures = true)) ∧
     (∃ v, Director.render ⟨[sOld, sNew]⟩ = some v ∧ v <+: [sOld, sNew] ∧
       (∀ s ∈ v.dropLast, s.render_captures = false) ∧
       (v = [sOld, sNew] ∨ ∃ s, v.getLast? = some s ∧ s.render_captures = true)) ∧
     (∃ v, Director.key_action ⟨[sOld, sNew]⟩ = some v ∧ v <+: [sOld, sNew].reverse ∧
       (∀ s ∈ v.dropLast, s.key_action_captures = false) ∧
       (v = [sOld, sNew].reverse ∨ ∃ s, v.getLast? = some s ∧ s.key_action_captures = true)) ∧
     (∃ v, Director.key_char ⟨[sOld, sNew]⟩ = some v ∧ v <+: [sOld, sNew].reverse ∧
       (∀ s ∈ v.dropLast, s.key_char_captures = false) ∧
       (v = [sOld, sNew].reverse ∨ ∃ s, v.getLast? = some s ∧ s.key_char_captures = true)) ∧
     (∃ v, Director.mouse_action ⟨[sOld, sNew]⟩ = some v ∧ v <+: [sOld, sNew].reverse ∧
       (∀ s ∈ v.dropLast, s.mouse_action_captures = false) ∧
       (v = [sOld, sNew].reverse ∨ ∃ s, v.getLast? = some s ∧ s.mouse_action_captures = true)) ∧
     (∃ v, Director.mouse_moved ⟨[sOld, sNew]⟩ = some v ∧ v <+: [sOld, sNew].reverse ∧
       (∀ s ∈ v.dropLast, s.mouse_moved_captures = false) ∧
       (v = [sOld, sNew].reverse ∨ ∃ s, v.getLast? = some s ∧ s.mouse_moved_captures = true))) :=
  ⟨by decide, c3_dispatch_directions ⟨[sOld, sNew]⟩ (by decide)⟩

/- ===== Removal lemmas (claim C9) ===== -/

theorem getLast?_of_ne_nil {α : Type} (l : List α) (h : l ≠ []) :
    ∃ a, l.getLast? = some a := by
  induction l with
  | nil => exact absurd rfl h
  | cons a t ih =>
    cases ht : t with
    | nil => exact ⟨a, rfl⟩
    | cons b u =>
      obtain ⟨c, hc⟩ := ih (by rw [ht]; simp)
      rw [ht] at hc
      exact ⟨c, by rw [getLast?_cons_of_ne_nil a (b :: u) (by simp)]; exact hc⟩

theorem rposition_some (p : DState → Bool) (l : List DState) (i : Nat)
    (h : rposition p l = some i) : ∃ st, l.get? i = some st ∧ p st = true := by
  induction l generalizing i with
  | nil => exact Option.noConfusion h
  | cons a t ih =>
    unfold rposition at h
    cases hr : rposition p t with
    | some j =>
      rw [hr] at h
      have hij : i = j + 1 := (Option.some.inj h).symm
      subst hij
      obtain ⟨st, hget, hp⟩ := ih j hr
      exact ⟨st, hget, hp⟩
    | none =>
      rw [hr] at h
      by_cases hp : p a = true
      · rw [if_pos hp] at h
        have hi0 : i = 0 := (Option.some.inj h).symm
        subst hi0
        exact ⟨a, rfl, hp⟩
      · rw [if_neg hp] at h
        exact Option.noConfusion h

theorem getD_of_get? {α : Type} [Inhabited α] (l : List α) (i : Nat) (st : α)
    (h : l.get? i = some st) : l.getD i default = st := by
  induction l generalizing i with
  | nil => exact Option.noConfusion h
  | cons a t ih =>
    cases i with
    | zero => exact Option.some.inj h
    | succ n => exact ih n h

theorem hook_unload_injective : Function.Injective Hook.unload := by
  intro a b h
  injection h

/-- C9: a state is never removed from the stack without its unload hook
running: pop unloads exactly the removed top state, pull with a matched
key unloads exactly the removed state, swap with a matched key unloads
exactly the replaced state (then loads the new one), and clear unloads
every state exactly once, from the top down. -/
theorem c9_unload_on_every_removal (d : Director) (key : String) (s : DState) (i : Nat) :
    (d.states ≠ [] →
      ∃ last, d.states.getLast? = some last ∧
        Director.pop d = some (⟨d.states.dropLast⟩, [Hook.unload last.key])) ∧
    (rposition (fun st => st.key == key) d.states = some i →
      ∃ st, d.states.get? i = some st ∧ (st.key == key) = true ∧
        Director.pull d key = (⟨d.states.eraseIdx i⟩, [Hook.unload st.key])) ∧
    (rposition (fun st => st.key == key) d.states = some i →
      ∃ st, d.states.get? i = some st ∧
        Director.swap d key s = (⟨d.states.set i s⟩, [Hook.unload st.key, Hook.load s.key])) ∧
    ((Director.clear d).2 = d.states.reverse.map (fun st => Hook.unload st.key) ∧
     ∀ k : String, (Director.clear d).2.count (Hook.unload k) =
       (d.states.map DState.key).count k) := by
  refine ⟨?_, ?_, ?_, rfl, ?_⟩
  · intro h
    obtain ⟨last, hL⟩ := getLast?_of_ne_nil d.states h
    refine ⟨last, hL, ?_⟩
    unfold Director.pop
    rw [hL]
  · intro hr
    obtain ⟨st, hget, hp⟩ := rposition_some _ _ _ hr
    refine ⟨st, hget, hp, ?_⟩
    unfold Director.pull
    rw [hr]
    simp only [getD_of_get? _ _ _ hget]
  · intro hr
    obtain ⟨st, hget, hp⟩ := rposition_some _ _ _ hr
    refine ⟨st, hget, ?_⟩
    unfold Director.swap
    rw [hr]
    simp only [getD_of_get? _ _ _ hget]
  · intro k
    unfold Director.clear
    have hmm2 : d.states.reverse.map (fun st => Hook.unload st.key) =
        (d.states.reverse.map DState.key).map Hook.unload := by
      rw [List.map_map]
      rfl
    rw [hmm2, List.count_map_of_injective _ Hook.unload hook_unload_injective k]
    rw [List.map_reverse, List.count_reverse]

/-- Replacement demonstration state for swap. -/
def sSwap : DState := ⟨"swap", false, false, false, false, false, false⟩

/-- C9 witness: all four removal paths on the two-state stack. -/
theorem c9_unload_on_every_removal_witness :
    ((⟨[sOld, sNew]⟩ : Director).states ≠ [] ∧
     rposition (fun st => st.key == "old") (⟨[sOld, sNew]⟩ : Director).states = some 0) ∧
    (∃ last, (⟨[sOld, sNew]⟩ : Director).states.getLast? = some last ∧
      Director.pop ⟨[sOld, sNew]⟩ =
        some (⟨(⟨[sOld, sNew]⟩ : Director).states.dropLast⟩, [Hook.unload last.key])) ∧
    (∃ st, (⟨[sOld, sNew]⟩ : Director).states.get? 0 = some st ∧ (st.key == "old") = true ∧
      Director.pull ⟨[sOld, sNew]⟩ "old" =
        (⟨(⟨[sOld, sNew]⟩ : Director).states.eraseIdx 0⟩, [Hook.unload st.key])) ∧
    (∃ st, (⟨[sOld, sNew]⟩ : Director).states.get? 0 = some st ∧
      Director.swap ⟨[sOld, sNew]⟩ "old" sSwap =
        (⟨(⟨[sOld, sNew]⟩ : Director).states.set 0 sSwap⟩,
         [Hook.unload st.key, Hook.load sSwap.key])) ∧
    ((Director.clear ⟨[sOld, sNew]⟩).2 =
      (⟨[sOld, sNew]⟩ : Director).states.reverse.map (fun st => Hook.unload st.key) ∧
     ∀ k : String, (Director.clear ⟨[sOld, sNew]⟩).2.count (Hook.unload k) =
       ((⟨[sOld, sNew]⟩ : Director).states.map DState.key).count k) :=
  ⟨⟨by decide, by decide⟩,
   (c9_unload_on_every_removal ⟨[sOld, sNew]⟩ "old" sSwap 0).1 (by decide),
   (c9_unload_on_every_removal ⟨[sOld, sNew]⟩ "old" sSwap 0).2.1 (by decide),
   (c9_unload_on_every_removal ⟨[sOld, sNew]⟩ "old" sSwap 0).2.2.1 (by decide),
   (c9_unload_on_every_removal ⟨[sOld, sNew]⟩ "old" sSwap 0).2.2.2⟩
